import Mathlib

/-
Verification of the SSAI-brain character-agent core against its
natural-language specification.  The Python sources are shallowly embedded:
pure fragments become Lean functions over `List Char`, `ℚ` and `ℤ`
(idealising CPython float arithmetic as exact rational arithmetic),
stateful fragments become explicit state-passing functions, and the
model/LLM calls become oracle parameters.  Every definition is translated
from the repository sources (file and line references are given in the doc
comments); definitions named `claim...` or `amended...` are instead written
from the specification's words, to be compared with the source-derived ones.
-/

set_option maxRecDepth 10000

/-! ## String prelude: Python-style helpers over `List Char` -/

/-- Python `pat in s` substring test: `isPrefixCh pat l` holds when `pat`
is a prefix of `l`. -/
def isPrefixCh : List Char → List Char → Bool
  | [], _ => true
  | _ :: _, [] => false
  | a :: as, b :: bs => a == b && isPrefixCh as bs

/-- Python `pat in s` substring test over char lists. -/
def isInfixCh (pat : List Char) : List Char → Bool
  | [] => pat.isEmpty
  | c :: rest => isPrefixCh pat (c :: rest) || isInfixCh pat rest

/-- Characters treated as whitespace by Python `str.strip()` (the subset
that occurs in this repository's data). -/
def isSpaceCh (c : Char) : Bool :=
  c == ' ' || c == '\n' || c == '\t' || c == '\r'

/-- Python `str.strip()`. -/
def pyStrip (l : List Char) : List Char :=
  (l.dropWhile isSpaceCh).reverse.dropWhile isSpaceCh |>.reverse

/-- Python `str.split(sep)` for a one-character separator. -/
def splitOnCh (sep : Char) : List Char → List (List Char)
  | [] => [[]]
  | c :: rest =>
    let r := splitOnCh sep rest
    if c = sep then [] :: r
    else
      match r with
      | h :: t => (c :: h) :: t
      | [] => [[c]]

/-- Digit-string parser modelling Python `int(s)` on an already-stripped
decimal literal (optional sign followed by at least one digit); any other
shape raises in Python and yields `none` here. -/
def parseDigits : List Char → Option ℕ
  | [] => none
  | l => l.foldl (fun acc c =>
      match acc with
      | none => none
      | some n => if c.isDigit then some (n * 10 + (c.toNat - 48)) else none)
      (some 0)

/-- Python `int(s)` for stripped decimal literals. -/
def parseIntOpt : List Char → Option ℤ
  | [] => none
  | '-' :: rest => (parseDigits rest).map (fun n => -(n : ℤ))
  | '+' :: rest => (parseDigits rest).map (fun n => (n : ℤ))
  | l => (parseDigits l).map (fun n => (n : ℤ))

/-! ## Leak scanner (`mcp_agent/chat_agent.py`, `_check_inner_os_leak`,
lines 1177-1238) -/

/-- The forbidden-substring list of `_check_inner_os_leak`
(chat_agent.py lines 1183-1217), transcribed verbatim. -/
def forbidden_patterns : List String :=
  [ "（内心OS：", "内心OS：",
    "（内心想法：", "内心想法：",
    "（心里想：", "心里想：",
    "（内心独白：", "内心独白：",
    "（稍微", "（解释", "（想想", "（不要透露", "（找个理由", "（态度要",
    "（然后", "（但不要", "（要", "（试着", "（尽量", "（避免",
    "（策略", "（计划", "（打算", "（准备", "（决定",
    "（思考", "（考虑", "（分析", "（判断", "（评估",
    "（表现出", "（显得", "（装作", "（假装", "（演示",
    "（转移话题", "（结束对话", "（敷衍", "（应付", "（回避",
    "（他对我", "（她对我", "（这人", "（这个人", "（用户",
    "（造物主", "（他们", "（她们", "（对方",
    "（挺好的", "（不错", "（还行", "（很好", "（真的",
    "（应该", "（可能", "（或许", "（大概", "（估计",
    "（关系", "（友好", "（亲近", "（疏远", "（信任",
    "（性格", "（人品", "（脾气", "（态度", "（为人" ]

/-- The whitelisted interjection/emote tokens of chat_agent.py line 1231. -/
def normal_tokens : List String :=
  ["笑", "叹气", "摇头", "点头", "哭", "汗", "...", "额", "嗯", "啊", "哈"]

/-- State-machine scan computing the matches of the regex `（[^）]*）`
(chat_agent.py line 1228): inner texts of the maximal full-width
parenthesised spans, in order.  The accumulator holds the reversed chars
collected since an unmatched `（`. -/
def bracketScan : List Char → Option (List Char) → List (List Char)
  | [], _ => []
  | c :: rest, none =>
    if c = '（' then bracketScan rest (some []) else bracketScan rest none
  | c :: rest, some acc =>
    if c = '）' then acc.reverse :: bracketScan rest none
    else bracketScan rest (some (c :: acc))

/-- All inner texts between matched full-width parentheses of a string. -/
def bracketContents (l : List Char) : List (List Char) :=
  bracketScan l none

/-- The span including its brackets, as the Python code checks the
whitelist against `content` (which still carries `（`/`）`). -/
def spanText (inner : List Char) : List Char :=
  '（' :: (inner ++ ['）'])

/-- Per-span test of chat_agent.py lines 1229-1236: a span is flagged when
no whitelisted token occurs in it and its bracket-free text is longer than
2 characters. -/
def spanFlagged (inner : List Char) : Bool :=
  if normal_tokens.any (fun t => isInfixCh t.data (spanText inner)) then false
  else decide (2 < inner.length)

/-- `_check_inner_os_leak` (chat_agent.py lines 1177-1238): true when the
response contains a forbidden pattern or a flagged full-width span. -/
def check_inner_os_leak (s : String) : Bool :=
  forbidden_patterns.any (fun p => isInfixCh p.data s.data)
    || (bracketContents s.data).any spanFlagged

/-! ## Turn orchestrator leak handling (`process_query` step 7,
chat_agent.py lines 890-894, 1279-1333) -/

/-- Kinds of model invocations made by the leak-handling path.  The
initial reply generation is `initialCall`; `strictRegenCall` is the call
`_regenerate_response_without_inner_os` (lines 1240-1277) would make, the
original messages plus an appended strict instruction; `fallbackPromptCall`
is the fresh fallback prompt of `_generate_intelligent_fallback_response`
(lines 1279-1319). -/
inductive LlmCallKind where
  | initialCall
  | strictRegenCall
  | fallbackPromptCall
deriving DecidableEq, Repr

/-- `_get_basic_emotional_response` (chat_agent.py lines 1321-1333). -/
def get_basic_emotional_response (intensity : ℤ) : String :=
  if 7 ≤ intensity then "心情不好，别烦我。"
  else if 5 ≤ intensity then "没什么心情，不想聊。"
  else "嗯，没什么可说的。"

/-- `_generate_intelligent_fallback_response` (lines 1279-1319): one LLM
call with a dedicated fallback prompt; `fallbackOut = none` models the
call raising, which falls back to the basic line, as does a fallback reply
that is itself flagged by the scanner. -/
def generate_intelligent_fallback_response (fallbackOut : Option String)
    (intensity : ℤ) : String :=
  match fallbackOut with
  | none => get_basic_emotional_response intensity
  | some t => if check_inner_os_leak t then get_basic_emotional_response intensity else t

/-- The leak-filter stage of `process_query` (lines 890-894) applied to the
initial model reply `first`: on a hit it replaces the reply by the
intelligent fallback.  Also returns the list of extra model calls made
after the initial one. -/
def leak_filter_stage (first : String) (fallbackOut : Option String)
    (intensity : ℤ) : String × List LlmCallKind :=
  if check_inner_os_leak first then
    (generate_intelligent_fallback_response fallbackOut intensity,
     [LlmCallKind.fallbackPromptCall])
  else (first, [])

/-- Step 9 of `process_query` (lines 924-936): the agent reply is saved to
the dialogue log only when its stripped text is non-empty. -/
def saved_agent_messages (response : String) : List String :=
  if (pyStrip response.data).isEmpty then [] else [response]

/-! ## Rational-number prelude for the mood arithmetic -/

/-- Python `round()` ties-to-even integer rounding. -/
def roundHalfEven (q : ℚ) : ℤ :=
  if q - (⌊q⌋ : ℚ) < 1/2 then ⌊q⌋
  else if 1/2 < q - (⌊q⌋ : ℚ) then ⌊q⌋ + 1
  else if ⌊q⌋ % 2 = 0 then ⌊q⌋ else ⌊q⌋ + 1

/-- Python `max(a, b)` on rationals (returns the first argument on ties),
written with an explicit comparison so that it evaluates by kernel
reduction. -/
def pyMax (a b : ℚ) : ℚ := if b ≤ a then a else b

/-- Python `min(a, b)` on rationals (returns the first argument on ties). -/
def pyMin (a b : ℚ) : ℚ := if a ≤ b then a else b

/-- Python `max(a, b)` on integers. -/
def pyMaxI (a b : ℤ) : ℤ := if b ≤ a then a else b

/-- Python `min(a, b)` on integers. -/
def pyMinI (a b : ℤ) : ℤ := if a ≤ b then a else b

/-- Python `round(x, 2)`. -/
def round2 (q : ℚ) : ℚ := (roundHalfEven (q * 100) : ℚ) / 100

/-- Python `round(x, 3)`. -/
def round3 (q : ℚ) : ℚ := (roundHalfEven (q * 1000) : ℚ) / 1000

/-- Python `int()` on a float: truncation toward zero. -/
def pyInt (q : ℚ) : ℤ := if 0 ≤ q then ⌊q⌋ else ⌈q⌉

/-! ## Mood data model (`mcp_agent/role_detail.py` lines 14-60) -/

/-- The numeric fields of the `RoleMood` dataclass.  The `my_tags` and
`my_mood_description_for_llm` text fields are carried by the source but no
claim refers to them, so they are elided here. -/
structure RoleMood where
  my_valence : ℚ
  my_arousal : ℚ
  my_intensity : ℤ
deriving DecidableEq, Repr

/-- The numeric fields of the plot-side mood dict handed to
`_synthesize_emotion_impacts` (either `process_plot_events_and_update_mood`
output or `current_mood.to_dict()`, chat_agent.py lines 713-748); all three
keys are always present on these paths. -/
structure PlotMoodData where
  my_valence : ℚ
  my_arousal : ℚ
  my_intensity : ℤ
deriving DecidableEq, Repr

/-- The numeric fields of the user-impact record produced by
`_analyze_user_message_emotion_impact` (chat_agent.py lines 1436-1508). -/
structure UserImpact where
  impact_valence : ℚ
  impact_arousal : ℚ
  impact_intensity : ℤ
deriving DecidableEq, Repr

/-! ## Mood composition engine (`_synthesize_emotion_impacts`,
chat_agent.py lines 1522-1617) -/

/-- `_synthesize_emotion_impacts` numeric computation (lines 1526-1554 and
the `RoleMood` construction at 1598-1604).  The tag/description synthesis
of lines 1556-1595 is independent of the numeric fields and is elided. -/
def synthesize_emotion_impacts (cur : RoleMood) (plot : PlotMoodData)
    (user : UserImpact) : RoleMood :=
  let plot_weight : ℚ := 7/10
  let user_weight : ℚ := 3/10
  let plot_valence_change := plot.my_valence - cur.my_valence
  let user_valence_change := user.impact_valence
  let total_valence_change :=
    plot_valence_change * plot_weight + user_valence_change * user_weight
  let new_valence := pyMax (-1 : ℚ) (pyMin 1 (cur.my_valence + total_valence_change))
  let plot_arousal_change := plot.my_arousal - cur.my_arousal
  let user_arousal_change := user.impact_arousal
  let total_arousal_change :=
    plot_arousal_change * plot_weight + user_arousal_change * user_weight
  let new_arousal := pyMax (0 : ℚ) (pyMin 1 (cur.my_arousal + total_arousal_change))
  let plot_intensity_change := (plot.my_intensity : ℚ) - (cur.my_intensity : ℚ)
  let user_intensity_change := (user.impact_intensity : ℚ)
  let total_intensity_change :=
    plot_intensity_change * plot_weight + user_intensity_change * user_weight
  let new_intensity :=
    pyMaxI 1 (pyMinI 10 (pyInt ((cur.my_intensity : ℚ) + total_intensity_change)))
  ⟨round2 new_valence, round2 new_arousal, new_intensity⟩

/-! ## User-impact analyzer (`_analyze_user_message_emotion_impact`,
chat_agent.py lines 1350-1520) -/

/-- The intensity-dependent amplification of lines 1479-1488: it scales
only the user-impact valence and arousal. -/
def amplify_user_impact (curIntensity : ℤ) (v a : ℚ) : ℚ × ℚ :=
  if 7 ≤ curIntensity then (v * (12/10), a * (12/10))
  else if curIntensity ≤ 3 then (v * (7/10), a * (7/10))
  else (v, a)

/-- The direction/strength classification of lines 1447-1476 on the parsed
feeling and impact-type parts, producing the pre-amplification
(valence, arousal) pair. -/
def classify_raw_impact (feeling ty : List Char) (k : ℤ) : ℚ × ℚ :=
  if isInfixCh "正面".data ty || isInfixCh "被认可".data feeling
      || isInfixCh "开心".data feeling || isInfixCh "高兴".data feeling then
    (pyMin (1/2) ((k : ℚ) * (8/100)), 0)
  else if isInfixCh "负面".data ty || isInfixCh "冒犯".data feeling
      || isInfixCh "不爽".data feeling || isInfixCh "生气".data feeling then
    (pyMax (-(1/2)) (-((k : ℚ) * (8/100))), pyMin (3/10) ((k : ℚ) * (3/100)))
  else (0, 0)

/-- The numeric core of `_analyze_user_message_emotion_impact` after the
`|`-split succeeded (lines 1428-1508): intensity parse with its fallback,
the no-impact early return, classification, amplification and 3-decimal
rounding.  The textual tag fields are elided. -/
def compute_user_impact (cur : RoleMood) (feeling ty strength : List Char) :
    UserImpact :=
  let impact_intensity : ℤ :=
    match parseIntOpt strength with
    | some n => n
    | none =>
      if isInfixCh "无影响".data ty || isInfixCh "没什么感觉".data feeling then 0 else 3
  if impact_intensity = 0 || isInfixCh "没什么感觉".data feeling
      || isInfixCh "无影响".data ty then
    ⟨0, 0, 0⟩
  else
    let va := classify_raw_impact feeling ty impact_intensity
    let va2 := amplify_user_impact cur.my_intensity va.1 va.2
    ⟨round3 va2.1, round3 va2.2, impact_intensity⟩

/-- `_analyze_user_message_emotion_impact` (lines 1413-1520): the stripped
model reply is split on `|`; fewer than 4 parts raises a `RuntimeError`
(lines 1513-1520), modelled as `Except.error`. -/
def analyze_user_message_emotion_impact (cur : RoleMood) (modelResponse : String) :
    Except Unit UserImpact :=
  match (splitOnCh '|' (pyStrip modelResponse.data)).map pyStrip with
  | feeling :: ty :: strength :: _subj :: _ =>
    Except.ok (compute_user_impact cur feeling ty strength)
  | _ => Except.error ()

/-- The dynamic-emotion-update block of `process_query` (chat_agent.py
lines 706-770): the user-impact analysis feeds the synthesis and the mood
write (lines 751-754); any raised analysis error is caught at lines
768-770, leaving the mood untouched and writing nothing.  Returns the
in-memory mood after the block and the mood written to the store
(`none` = no write). -/
def emotion_update_block (cur : RoleMood) (modelResponse : String)
    (plot : PlotMoodData) : RoleMood × Option RoleMood :=
  match analyze_user_message_emotion_impact cur modelResponse with
  | Except.error _ => (cur, none)
  | Except.ok u =>
    let nm := synthesize_emotion_impacts cur plot u
    (nm, some nm)

/-! ## Mood store tiers (C6): `EnhancedMCPAgent.update_role_mood`
(chat_agent.py lines 235-254) vs `RoleDetailManager.update_role_mood`
(role_detail.py lines 191-217) -/

/-- The two mood tiers for one role: the durable `role_details.mood` MySQL
column and the hot `role_mood:<role_id>` Redis hash. -/
structure MoodStores where
  durable : Option RoleMood
  hot : Option RoleMood
deriving DecidableEq, Repr

/-- `EnhancedMCPAgent.update_role_mood` (chat_agent.py lines 235-254):
sets the in-memory mood and writes the Redis hash with a 24h TTL; it
performs no MySQL write. -/
def agent_update_role_mood (s : MoodStores) (m : RoleMood) : MoodStores :=
  { s with hot := some m }

/-- `RoleDetailManager.update_role_mood` (role_detail.py lines 191-217):
a single `UPDATE role_details SET mood = ...` MySQL statement; it performs
no Redis write. -/
def manager_update_role_mood (s : MoodStores) (m : RoleMood) : MoodStores :=
  { s with durable := some m }

/-- The mood write performed by the turn pipeline: `process_query` step 2.4
(chat_agent.py line 754) calls `self.update_role_mood`, the agent method. -/
def turn_pipeline_mood_write (s : MoodStores) (m : RoleMood) : MoodStores :=
  agent_update_role_mood s m

/-! ## Life-story state machine (C7, C10):
`character_life_system/life_stage_updater.py` -/

/-- Stage/segment status enum of the life-story tables. -/
inductive LifeStatus where
  | locked
  | active
  | completed
deriving DecidableEq, Repr

/-- A `life_stages` row (the columns the updater touches). -/
structure StageRow where
  stageId : ℕ
  outlineId : ℕ
  seqOrder : ℕ
  status : LifeStatus
deriving DecidableEq, Repr

/-- A `plot_segments` row (the columns the updater touches). -/
structure SegRow where
  segId : ℕ
  stageId : ℕ
  orderInStage : ℕ
  status : LifeStatus
deriving DecidableEq, Repr

/-- A `specific_plot` row; `plot_date` is modelled as a day index, the
source's ISO `YYYY-MM-DD` strings being ordered chronologically by their
lexicographic (string) comparison. -/
structure PlotRow where
  plotId : ℕ
  segId : ℕ
  plotDate : ℕ
deriving DecidableEq, Repr

/-- The durable life-story state: `specific_plot` rows, the daily-plot
text blobs under `character_plots/`, `life_stages` rows and
`plot_segments` rows. -/
structure LifeDb where
  plots : List PlotRow
  blobs : List ℕ
  stages : List StageRow
  segments : List SegRow
deriving DecidableEq, Repr

/-- Database actions of the advancement transaction, recorded in source
order for the frame-effect claim. -/
inductive DbAction where
  | deleteAllPlotSegments
  | setStageStatusAct (stageId : ℕ) (st : LifeStatus)
  | insertStagesAct (rows : List StageRow)
  | setSegStatusAct (segId : ℕ) (st : LifeStatus)
  | deleteAllSpecificPlots
deriving DecidableEq, Repr

/-- UPDATE of one stage row by id. -/
def setStage (stages : List StageRow) (id : ℕ) (st : LifeStatus) : List StageRow :=
  stages.map fun r => if r.stageId = id then { r with status := st } else r

/-- UPDATE of one segment row by id. -/
def setSeg (segments : List SegRow) (id : ℕ) (st : LifeStatus) : List SegRow :=
  segments.map fun r => if r.segId = id then { r with status := st } else r

/-- `_clear_plot_files_and_data` (life_stage_updater.py lines 1513-1551):
deletes every role's daily-plot blob directory and every `specific_plot`
row, committing immediately. -/
def clear_plot_files_and_data (db : LifeDb) : LifeDb :=
  { db with plots := [], blobs := [] }

/-- `_get_max_plot_date` (lines 1493-1511): `MAX(plot_date)` over
`specific_plot`. -/
def get_max_plot_date (db : LifeDb) : Option ℕ :=
  (db.plots.map (fun p => p.plotDate)).max?

/-- Loop state of the `for stage in active_stages` loop of
`_advance_life_stage_status`: the in-transaction stage rows, the emitted
actions, the last-stage flag, the advanced counter, and the new-stage rows
inserted (and committed) by `_generate_new_life_stages`'s own session. -/
structure StageLoopState where
  stages : List StageRow
  acts : List DbAction
  isLast : Bool
  advanced : ℕ
  inserted : List StageRow

/-- One iteration of the stage-advancement loop (lines 1581-1619): mark
the active stage completed; activate the locked sibling with
`sequence_order + 1` if present, else call `_generate_new_life_stages`
(modelled by the oracle `gen`, whose `none` is a terminal LLM failure
after the bounded retries — its result is not checked by the caller). -/
def stage_loop_step (gen : ℕ → Option (List StageRow)) (st : StageLoopState)
    (stage : StageRow) : StageLoopState :=
  let stages1 := setStage st.stages stage.stageId LifeStatus.completed
  let acts1 := st.acts ++ [DbAction.setStageStatusAct stage.stageId LifeStatus.completed]
  match stages1.find? (fun r => decide (r.outlineId = stage.outlineId ∧
      r.seqOrder = stage.seqOrder + 1 ∧ r.status = LifeStatus.locked)) with
  | some nxt =>
    ⟨setStage stages1 nxt.stageId LifeStatus.active,
     acts1 ++ [DbAction.setStageStatusAct nxt.stageId LifeStatus.active],
     st.isLast, st.advanced + 1, st.inserted⟩
  | none =>
    match gen stage.outlineId with
    | some newRows =>
      ⟨stages1, acts1 ++ [DbAction.insertStagesAct newRows], true,
       st.advanced, st.inserted ++ newRows⟩
    | none => ⟨stages1, acts1, true, st.advanced, st.inserted⟩

/-- `_advance_life_stage_status` (lines 1553-1632).  Its first statement is
`DELETE FROM plot_segments` with no WHERE clause (lines 1560-1563); it then
advances every active stage and commits the whole transaction at line 1621.
The early return when no stage is active (lines 1574-1576) leaves the
session uncommitted, so the delete is rolled back and nothing is durable.
Returns (committed state, committed actions in order, return value). -/
def stage_loop_run (gen : ℕ → Option (List StageRow)) (db : LifeDb) :
    StageLoopState :=
  (db.stages.filter (fun r => decide (r.status = LifeStatus.active))).foldl
    (stage_loop_step gen) ⟨db.stages, [], false, 0, []⟩

def advance_life_stage_status (db : LifeDb) (gen : ℕ → Option (List StageRow)) :
    LifeDb × List DbAction × Bool :=
  if (db.stages.filter (fun r => decide (r.status = LifeStatus.active))).isEmpty then
    (db, [], false)
  else
    (⟨db.plots, db.blobs,
       (stage_loop_run gen db).stages ++ (stage_loop_run gen db).inserted, []⟩,
     DbAction.deleteAllPlotSegments :: (stage_loop_run gen db).acts,
     if (stage_loop_run gen db).isLast then true
     else decide (0 < (stage_loop_run gen db).advanced))

/-- Loop state of the `for segment in active_segments` loop of
`_advance_plot_segment_status`. -/
structure SegLoopState where
  segments : List SegRow
  acts : List DbAction
  isLast : Bool
  advanced : ℕ

/-- One iteration of the segment-advancement loop (lines 1657-1693). -/
def seg_loop_step (st : SegLoopState) (seg : SegRow) : SegLoopState :=
  let segs1 := setSeg st.segments seg.segId LifeStatus.completed
  let acts1 := st.acts ++ [DbAction.setSegStatusAct seg.segId LifeStatus.completed]
  match segs1.find? (fun r => decide (r.stageId = seg.stageId ∧
      r.orderInStage = seg.orderInStage + 1 ∧ r.status = LifeStatus.locked)) with
  | some nxt =>
    ⟨setSeg segs1 nxt.segId LifeStatus.active,
     acts1 ++ [DbAction.setSegStatusAct nxt.segId LifeStatus.active],
     st.isLast, st.advanced + 1⟩
  | none => ⟨segs1, acts1, true, st.advanced⟩

/-- `_advance_plot_segment_status` (lines 1634-1706): advances every active
segment, commits (line 1695), and only then — when some active segment was
the last of its stage — runs `_advance_life_stage_status` in a fresh
transaction. -/
def seg_loop_run (db : LifeDb) : SegLoopState :=
  (db.segments.filter (fun r => decide (r.status = LifeStatus.active))).foldl
    seg_loop_step ⟨db.segments, [], false, 0⟩

def advance_plot_segment_status (db : LifeDb) (gen : ℕ → Option (List StageRow)) :
    LifeDb × List DbAction × Bool :=
  if (db.segments.filter (fun r => decide (r.status = LifeStatus.active))).isEmpty then
    (db, [], false)
  else
    if (seg_loop_run db).isLast then
      ((advance_life_stage_status { db with segments := (seg_loop_run db).segments } gen).1,
       (seg_loop_run db).acts ++
         (advance_life_stage_status { db with segments := (seg_loop_run db).segments } gen).2.1,
       (advance_life_stage_status { db with segments := (seg_loop_run db).segments } gen).2.2)
    else ({ db with segments := (seg_loop_run db).segments }, (seg_loop_run db).acts,
      decide (0 < (seg_loop_run db).advanced))

/-- `_generate_daily_plots_for_segment` (lines 1082-1130): skipped when the
segment already has `specific_plot` rows; otherwise the day loop stores
each successfully generated day at once and aborts on the first failed
day.  `genDaily` returns the rows committed by the successful prefix of
days together with the overall success flag. -/
def generate_daily_plots_for_segment (db : LifeDb)
    (genDaily : ℕ → List PlotRow × Bool) (segId : ℕ) : LifeDb × Bool :=
  if (db.plots.filter (fun p => decide (p.segId = segId))).isEmpty then
    let r := genDaily segId
    ({ db with plots := db.plots ++ r.1 }, r.2)
  else (db, true)

/-- `generate_daily_plots_for_active_segments` (lines 660-720): the
time-advance trigger.  When now (Beijing civil date) is beyond the maximal
stored `plot_date`, it purges all daily plots and blobs, advances segment
statuses, and only then regenerates daily plots for the active segments;
each step's writes are committed by that step itself. -/
def regen_fold (genDaily : ℕ → List PlotRow × Bool) (db : LifeDb) : LifeDb :=
  (db.segments.filter (fun r => decide (r.status = LifeStatus.active))).foldl
    (fun d s => (generate_daily_plots_for_segment d genDaily s.segId).1) db

def generate_daily_plots_for_active_segments (db : LifeDb) (now : ℕ)
    (gen : ℕ → Option (List StageRow)) (genDaily : ℕ → List PlotRow × Bool) :
    LifeDb :=
  if (match get_max_plot_date db with
      | some d => decide (d < now)
      | none => false) then
    if (advance_plot_segment_status (clear_plot_files_and_data db) gen).2.2 then
      regen_fold genDaily (advance_plot_segment_status (clear_plot_files_and_data db) gen).1
    else (advance_plot_segment_status (clear_plot_files_and_data db) gen).1
  else
    regen_fold genDaily db

/-- Retry bounds of `LifeStageUpdaterConfig` (life_stage_updater.py lines
37-38). -/
def MAX_RETRIES : ℕ := 3

/-- Initial backoff delay in seconds (line 38). -/
def INITIAL_RETRY_DELAY : ℕ := 2

/-- The retry loop shared by the `_generate_*_with_llm` helpers (lines
346-375, 1306-1335, 1811-1863): up to `remaining` attempts, sleeping
`delay` seconds after each failed non-final attempt and doubling it.
Returns the first success, the number of attempts made, and the list of
sleep delays. -/
def retryRun {α : Type} (oracle : ℕ → Option α) :
    ℕ → ℕ → ℕ → Option α × ℕ × List ℕ
  | 0, idx, _ => (none, idx, [])
  | Nat.succ rem, idx, delay =>
    match oracle idx with
    | some v => (some v, idx + 1, [])
    | none =>
      if rem = 0 then (none, idx + 1, [])
      else
        let r := retryRun oracle rem (idx + 1) (delay * 2)
        (r.1, r.2.1, delay :: r.2.2)

/-- A `_generate_*_with_llm` call: `MAX_RETRIES` attempts starting from
`INITIAL_RETRY_DELAY` seconds of backoff. -/
def run_with_retries {α : Type} (oracle : ℕ → Option α) : Option α × ℕ × List ℕ :=
  retryRun oracle MAX_RETRIES 0 INITIAL_RETRY_DELAY

/-! ## Temporal plot window resolver (C8):
`mcp_agent/time_plot_manager.py`, `get_current_time_content_with_role`
(lines 420-535) and its previous-day helper (lines 537-564) -/

/-- A parsed plot line of `parse_plot_file_content` (lines 153-212):
`HH:MM-HH:MM text` or `HH:MM-xx:xx text`; `endMinutes = none` models the
open-ended `xx:xx` form. -/
structure PlotSeg where
  lineNumber : ℕ
  startMinutes : ℕ
  endMinutes : Option ℕ
  fullLine : String
deriving DecidableEq, Repr

/-- Python `min(segments, key=start_minutes)`: keeps the first minimum. -/
def minByStart (s0 : PlotSeg) (rest : List PlotSeg) : PlotSeg :=
  rest.foldl (fun acc s => if s.startMinutes < acc.startMinutes then s else acc) s0

/-- Python `max(segments, key=start_minutes)`: keeps the first maximum. -/
def maxByStart (s0 : PlotSeg) (rest : List PlotSeg) : PlotSeg :=
  rest.foldl (fun acc s => if acc.startMinutes < s.startMinutes then s else acc) s0

/-- Line 448: `latest.end_minutes if latest.end_minutes else latest.start_minutes`
with Python truthiness (a 0 end counts as falsy). -/
def latestEndInit (latest : PlotSeg) : ℕ :=
  match latest.endMinutes with
  | some e => if e ≠ 0 then e else latest.startMinutes
  | none => latest.startMinutes

/-- One step of the lines 449-451 fold: raise the accumulator to a
(truthy) segment end exceeding it. -/
def latestEndStep (acc : ℕ) (s : PlotSeg) : ℕ :=
  match s.endMinutes with
  | some e => if e ≠ 0 ∧ acc < e then e else acc
  | none => acc

/-- Lines 449-451: fold raising the latest end over every segment whose
(truthy) end exceeds the accumulator. -/
def latestEndFold (segs : List PlotSeg) (init : ℕ) : ℕ :=
  segs.foldl latestEndStep init

/-- The target-search loop of lines 484-507: the first closed segment
containing `now` wins and breaks; an open-ended segment with
`start ≤ now` is remembered and overwritten by later matches. -/
def findTarget (now : ℕ) : List PlotSeg → Option PlotSeg → Option PlotSeg
  | [], acc => acc
  | s :: rest, acc =>
    match s.endMinutes with
    | some e =>
      if s.startMinutes ≤ now ∧ now < e then some s
      else findTarget now rest acc
    | none =>
      if s.startMinutes ≤ now then findTarget now rest (some s)
      else findTarget now rest acc

/-- `abs(start_minutes - current_minutes)` over ℕ. -/
def distTo (now : ℕ) (s : PlotSeg) : ℕ :=
  max s.startMinutes now - min s.startMinutes now

/-- Line 524: `min(segments, key=abs(start - now))`, first minimum. -/
def closestByStart (now : ℕ) (s0 : PlotSeg) (rest : List PlotSeg) : PlotSeg :=
  rest.foldl (fun acc s => if distTo now s < distTo now acc then s else acc) s0

/-- `get_current_time_content_with_role` (lines 420-535).  `prevDayLines`
is the result of `_load_previous_day_plot_with_role` (lines 537-564): all
full lines of the previous civil day's parsed file, or `[]` when that file
is missing or parses to no segments. -/
def get_current_time_content_with_role (segs : List PlotSeg) (now : ℕ)
    (prevDayLines : List String) : List String :=
  match segs with
  | [] => []
  | s0 :: rest =>
    if now < (minByStart s0 rest).startMinutes then
      if prevDayLines.isEmpty then
        ((s0 :: rest).filter
            (fun s => decide (s.lineNumber ≤ (minByStart s0 rest).lineNumber))).map
          (fun s => s.fullLine)
      else prevDayLines
    else if latestEndFold (s0 :: rest) (latestEndInit (maxByStart s0 rest)) ≤ now then
      ((s0 :: rest).filter (fun s =>
          decide (s.lineNumber ≤ ((s0 :: rest).map (fun x => x.lineNumber)).foldl max 0))).map
        (fun s => s.fullLine)
    else
      match findTarget now (s0 :: rest) none with
      | some t =>
        ((s0 :: rest).filter (fun s => decide (s.lineNumber ≤ t.lineNumber))).map
          (fun s => s.fullLine)
      | none =>
        ((s0 :: rest).filter (fun s =>
            decide (s.lineNumber ≤ (closestByStart now s0 rest).lineNumber))).map
          (fun s => s.fullLine)

/-- `_load_previous_day_plot_with_role` at the file-system level: `files`
maps a civil-day index to the parsed plot file of that day (`[]` when the
file is missing or parses to nothing).  The helper reads exactly one day
back and returns all its lines. -/
def load_previous_day_plot (files : ℤ → List PlotSeg) (today : ℤ) : List String :=
  (files (today - 1)).map (fun s => s.fullLine)

/-- `get_role_current_plot_content` (lines 386-418): empty or missing
today-file short-circuits to `[]`; otherwise the resolver runs with the
previous day's lines available for the early-morning fallback. -/
def get_role_plot_window (files : ℤ → List PlotSeg) (today : ℤ) (now : ℕ) :
    List String :=
  match files today with
  | [] => []
  | s0 :: rest =>
    get_current_time_content_with_role (s0 :: rest) now
      (load_previous_day_plot files today)

/-- A closed, non-degenerate plot line: a concrete end strictly after the
start. -/
def segClosedB (s : PlotSeg) : Bool :=
  match s.endMinutes with
  | some e => decide (s.startMinutes < e)
  | none => false

/-- The end minute of a (closed) segment, defaulting to 0. -/
def endVal (s : PlotSeg) : ℕ := s.endMinutes.getD 0

/-- Chronological well-formedness of a pair of plot lines: file order,
start order and non-overlap all agree. -/
def segBefore (a b : PlotSeg) : Prop :=
  a.lineNumber < b.lineNumber ∧ a.startMinutes < b.startMinutes ∧
    endVal a ≤ b.startMinutes

instance (a b : PlotSeg) : Decidable (segBefore a b) := by
  unfold segBefore; infer_instance

/-! ## Dialogue-log flush (C9): `mcp_agent/persistent_storage.py`,
`persist_redis_messages_to_mysql` (lines 271-363) -/

/-- A `chat_messages` row of one session: its `message_id` and
`message_order`. -/
structure DbMsg where
  messageId : ℕ
  msgOrder : ℕ
deriving DecidableEq, Repr

/-- `SELECT COALESCE(MAX(message_order), 0)` (lines 286-290). -/
def maxOrderOf (rows : List DbMsg) : ℕ :=
  rows.foldl (fun acc r => max acc r.msgOrder) 0

/-- `persist_redis_messages_to_mysql` (lines 271-363): `hot` is the
traversal order `reversed(messages_data)` of the session's Redis list,
identified by message id.  Every entry — including ones already present in
MySQL — consumes an index `i`; entries already present are skipped, the
rest are inserted with `message_order = max_order + i + 1`. -/
def persist_redis_messages_to_mysql (existing : List DbMsg) (hot : List ℕ) :
    List DbMsg :=
  existing ++ hot.enum.filterMap (fun p =>
    if existing.any (fun r => decide (r.messageId = p.2)) then none
    else some ⟨p.2, maxOrderOf existing + p.1 + 1⟩)

/-! ## Formalized claim formulas (written from the claim/spec words, for
comparison with the source-derived definitions above) -/

/-- C3's composition exactly as the claim words it: plain clamps and a
round-to-nearest integer for intensity, with no storage rounding. -/
def claimC3Compose (cur : RoleMood) (plot : PlotMoodData) (user : UserImpact) :
    RoleMood :=
  ⟨pyMax (-1 : ℚ) (pyMin 1 (cur.my_valence + (7/10) * (plot.my_valence - cur.my_valence)
      + (3/10) * user.impact_valence)),
   pyMax (0 : ℚ) (pyMin 1 (cur.my_arousal + (7/10) * (plot.my_arousal - cur.my_arousal)
      + (3/10) * user.impact_arousal)),
   pyMaxI 1 (pyMinI 10 (round ((cur.my_intensity : ℚ)
      + (7/10) * ((plot.my_intensity : ℚ) - (cur.my_intensity : ℚ))
      + (3/10) * (user.impact_intensity : ℚ))))⟩

/-- The amended C3 formula: same weighted clamped composition, but the
stored valence/arousal are rounded to 2 decimals and the intensity is
truncated toward zero (Python `int()`), not rounded to nearest. -/
def amendedC3Compose (cur : RoleMood) (plot : PlotMoodData) (user : UserImpact) :
    RoleMood :=
  ⟨round2 (pyMax (-1 : ℚ) (pyMin 1 (cur.my_valence
      + (7/10) * (plot.my_valence - cur.my_valence) + (3/10) * user.impact_valence))),
   round2 (pyMax (0 : ℚ) (pyMin 1 (cur.my_arousal
      + (7/10) * (plot.my_arousal - cur.my_arousal) + (3/10) * user.impact_arousal))),
   pyMaxI 1 (pyMinI 10 (pyInt ((cur.my_intensity : ℚ)
      + (7/10) * ((plot.my_intensity : ℚ) - (cur.my_intensity : ℚ))
      + (3/10) * (user.impact_intensity : ℚ))))⟩

/-- The amplification factor named by claim C4: 1.2 at intensity ≥ 7,
0.7 at intensity ≤ 3, 1.0 otherwise. -/
def amplify_factor (i : ℤ) : ℚ :=
  if 7 ≤ i then 12/10 else if i ≤ 3 then 7/10 else 1

/-- C4's composition exactly as the claim words it: BOTH the plot-derived
delta and the user-derived delta multiplied by the amplification factor
before clamping, given the raw (pre-amplification) user impact. -/
def claimC4Compose (cur : RoleMood) (plot : PlotMoodData) (rawV rawA : ℚ)
    (k : ℤ) : RoleMood :=
  ⟨pyMax (-1 : ℚ) (pyMin 1 (cur.my_valence
      + amplify_factor cur.my_intensity * ((7/10) * (plot.my_valence - cur.my_valence))
      + amplify_factor cur.my_intensity * ((3/10) * rawV))),
   pyMax (0 : ℚ) (pyMin 1 (cur.my_arousal
      + amplify_factor cur.my_intensity * ((7/10) * (plot.my_arousal - cur.my_arousal))
      + amplify_factor cur.my_intensity * ((3/10) * rawA))),
   pyMaxI 1 (pyMinI 10 (round ((cur.my_intensity : ℚ)
      + amplify_factor cur.my_intensity
        * ((7/10) * ((plot.my_intensity : ℚ) - (cur.my_intensity : ℚ)))
      + amplify_factor cur.my_intensity * ((3/10) * (k : ℚ)))))⟩

/-- The amended C4 composition: the factor scales only the user-derived
valence/arousal impact (before its 3-decimal rounding inside the
analyzer); the plot-derived delta and the user intensity impact are never
scaled. -/
def amendedC4Compose (cur : RoleMood) (plot : PlotMoodData) (rawV rawA : ℚ)
    (k : ℤ) : RoleMood :=
  ⟨round2 (pyMax (-1 : ℚ) (pyMin 1 (cur.my_valence
      + (7/10) * (plot.my_valence - cur.my_valence)
      + (3/10) * round3 (amplify_factor cur.my_intensity * rawV)))),
   round2 (pyMax (0 : ℚ) (pyMin 1 (cur.my_arousal
      + (7/10) * (plot.my_arousal - cur.my_arousal)
      + (3/10) * round3 (amplify_factor cur.my_intensity * rawA)))),
   pyMaxI 1 (pyMinI 10 (pyInt ((cur.my_intensity : ℚ)
      + (7/10) * ((plot.my_intensity : ℚ) - (cur.my_intensity : ℚ))
      + (3/10) * (k : ℚ))))⟩

/-! ## Theorems -/

/-- Helper: none of the three basic emotional fallback lines trips the
leak scanner. -/
theorem basic_response_clean (i : ℤ) :
    check_inner_os_leak (get_basic_emotional_response i) = false := by
  unfold get_basic_emotional_response
  split_ifs <;> decide

/-- C1 (counterexample): the claim asserts that the scanner flags contents
of matched half-width parentheses — in particular the S4 mock output — but
`_check_inner_os_leak` only inspects full-width `（...）` spans and
full-width forbidden patterns, so the half-width example is not flagged. -/
theorem C1_counterexample :
    check_inner_os_leak "OK(she\x27s annoying, just brush her off)sure." = false := by
  decide

/-- C1 (amended): the scanner flags every substring between matched
FULL-WIDTH parentheses that is longer than 2 characters and does not
contain any whitelisted interjection token; half-width parentheses are
never inspected. -/
theorem C1_amended (s : String) (inner : List Char)
    (h1 : inner ∈ bracketContents s.data)
    (h2 : 2 < inner.length)
    (h3 : ∀ t ∈ normal_tokens, isInfixCh t.data (spanText inner) = false) :
    check_inner_os_leak s = true := by
  have hflag : spanFlagged inner = true := by
    unfold spanFlagged
    rw [if_neg]
    · exact decide_eq_true h2
    · intro hany
      rcases List.any_eq_true.mp hany with ⟨t, ht, htt⟩
      rw [h3 t ht] at htt
      exact Bool.false_ne_true htt
  have hspan : (bracketContents s.data).any spanFlagged = true :=
    List.any_eq_true.mpr ⟨inner, h1, hflag⟩
  unfold check_inner_os_leak
  rw [hspan, Bool.or_true]

/-- Witness for C1 (amended) at a concrete full-width span. -/
theorem C1_amended_witness :
    check_inner_os_leak "好的（今天天气真冷）走吧" = true :=
  C1_amended _ "今天天气真冷".data (by decide) (by decide) (by decide)

/-- C2 (counterexample): on a flagged first reply the orchestrator does
not issue a strict-instruction regeneration of the original messages; it
performs zero such calls (it runs the fresh fallback prompt instead), so
the claimed "exactly one regeneration with an added strict instruction"
fails. -/
theorem C2_counterexample :
    check_inner_os_leak "（策略测试）好" = true ∧
    (leak_filter_stage "（策略测试）好" (some "好的。") 4).2.count
      LlmCallKind.strictRegenCall = 0 := by
  exact ⟨by decide, by decide⟩

/-- C2 (amended): on a flagged reply, `process_query` issues exactly one
fresh fallback-prompt generation (never the strict-instruction
regeneration helper, which is not invoked); a flagged or failed fallback
yields the intensity-keyed basic line (harsh at intensity ≥ 7, milder at
5 ≤ i < 7, mildest below 5); the returned reply is never itself flagged
and only that unflagged reply can be persisted. -/
theorem C2_amended (first : String) (fallbackOut : Option String) (intensity : ℤ)
    (hflag : check_inner_os_leak first = true) :
    (leak_filter_stage first fallbackOut intensity).2 =
      [LlmCallKind.fallbackPromptCall] ∧
    (∀ t, fallbackOut = some t → check_inner_os_leak t = false →
      (leak_filter_stage first fallbackOut intensity).1 = t) ∧
    (∀ t, fallbackOut = some t → check_inner_os_leak t = true →
      (leak_filter_stage first fallbackOut intensity).1 =
        get_basic_emotional_response intensity) ∧
    (fallbackOut = none →
      (leak_filter_stage first fallbackOut intensity).1 =
        get_basic_emotional_response intensity) ∧
    check_inner_os_leak (leak_filter_stage first fallbackOut intensity).1 = false ∧
    (7 ≤ intensity → get_basic_emotional_response intensity = "心情不好，别烦我。") ∧
    (5 ≤ intensity → intensity < 7 →
      get_basic_emotional_response intensity = "没什么心情，不想聊。") ∧
    (intensity < 5 → get_basic_emotional_response intensity = "嗯，没什么可说的。") ∧
    (∀ m ∈ saved_agent_messages (leak_filter_stage first fallbackOut intensity).1,
      check_inner_os_leak m = false) := by
  have hstage : leak_filter_stage first fallbackOut intensity =
      (generate_intelligent_fallback_response fallbackOut intensity,
       [LlmCallKind.fallbackPromptCall]) := by
    unfold leak_filter_stage
    rw [if_pos hflag]
  have hclean : ∀ fb, check_inner_os_leak
      (generate_intelligent_fallback_response fb intensity) = false := by
    intro fb
    cases fb with
    | none => exact basic_response_clean intensity
    | some t =>
      show check_inner_os_leak (if check_inner_os_leak t = true then
        get_basic_emotional_response intensity else t) = false
      cases ht : check_inner_os_leak t with
      | true => rw [if_pos rfl]; exact basic_response_clean intensity
      | false => rw [if_neg Bool.false_ne_true]; exact ht
  refine ⟨by rw [hstage], ?_, ?_, ?_, ?_, ?_, ?_, ?_, ?_⟩
  · intro t ht hcl
    rw [hstage, ht]
    show (if check_inner_os_leak t = true then
      get_basic_emotional_response intensity else t) = t
    exact if_neg (by rw [hcl]; exact Bool.false_ne_true)
  · intro t ht hl
    rw [hstage, ht]
    show (if check_inner_os_leak t = true then
      get_basic_emotional_response intensity else t) =
      get_basic_emotional_response intensity
    exact if_pos hl
  · intro ht
    rw [hstage, ht]
    rfl
  · rw [hstage]
    exact hclean fallbackOut
  · intro h
    unfold get_basic_emotional_response
    rw [if_pos h]
  · intro h5 h7
    unfold get_basic_emotional_response
    rw [if_neg (by omega), if_pos h5]
  · intro h5
    unfold get_basic_emotional_response
    rw [if_neg (by omega), if_neg (by omega)]
  · intro m hm
    unfold saved_agent_messages at hm
    split at hm
    · exact absurd hm (List.not_mem_nil m)
    · rw [List.mem_singleton.mp hm, hstage]
      exact hclean fallbackOut

/-- Witness for C2 (amended) on a concretely flagged first reply and a
concretely flagged fallback reply at intensity 8. -/
theorem C2_amended_witness :
    (leak_filter_stage "（策略测试）好" (some "（计划继续测试）") 8).1 =
      get_basic_emotional_response 8 ∧
    (leak_filter_stage "（策略测试）好" (some "（计划继续测试）") 8).2 =
      [LlmCallKind.fallbackPromptCall] ∧
    get_basic_emotional_response 8 = "心情不好，别烦我。" := by
  have h := C2_amended "（策略测试）好" (some "（计划继续测试）") 8 (by decide)
  exact ⟨h.2.2.1 _ rfl (by decide), h.1, h.2.2.2.2.2.1 (by decide)⟩

/-- Helper: `roundHalfEven` never exceeds an integer bound of its input. -/
theorem roundHalfEven_le_int (q : ℚ) (n : ℤ) (h : q ≤ (n : ℚ)) :
    roundHalfEven q ≤ n := by
  have hf : ⌊q⌋ ≤ n := by
    have := Int.floor_le_floor h
    rwa [Int.floor_intCast] at this
  unfold roundHalfEven
  split_ifs with h1 h2 h3
  · exact hf
  · have hq : (⌊q⌋ : ℚ) + 1/2 < q := by linarith
    have : (⌊q⌋ : ℚ) < (n : ℚ) := by linarith
    have := Int.cast_lt.mp this
    omega
  · exact hf
  · have hr : q - (⌊q⌋ : ℚ) = 1/2 := by linarith
    have : (⌊q⌋ : ℚ) < (n : ℚ) := by linarith
    have := Int.cast_lt.mp this
    omega

/-- Helper: `roundHalfEven` respects an integer lower bound of its input. -/
theorem int_le_roundHalfEven (q : ℚ) (n : ℤ) (h : (n : ℚ) ≤ q) :
    n ≤ roundHalfEven q := by
  have hf : n ≤ ⌊q⌋ := Int.le_floor.mpr h
  unfold roundHalfEven
  split_ifs <;> omega

/-- Helper: `round2` preserves an upper bound of 1. -/
theorem round2_le_one (q : ℚ) (h : q ≤ 1) : round2 q ≤ 1 := by
  unfold round2
  have h2 : roundHalfEven (q * 100) ≤ 100 :=
    roundHalfEven_le_int _ 100 (by push_cast; linarith)
  rw [div_le_one (by norm_num)]
  exact_mod_cast h2

/-- Helper: `round2` preserves a lower bound of -1. -/
theorem neg_one_le_round2 (q : ℚ) (h : -1 ≤ q) : -1 ≤ round2 q := by
  unfold round2
  have h2 : (-100 : ℤ) ≤ roundHalfEven (q * 100) :=
    int_le_roundHalfEven _ (-100) (by push_cast; linarith)
  have h3 : ((-100 : ℤ) : ℚ) ≤ (roundHalfEven (q * 100) : ℚ) := by
    exact_mod_cast h2
  rw [le_div_iff₀ (by norm_num)]
  push_cast at h3 ⊢
  linarith

/-- Helper: `round2` preserves nonnegativity. -/
theorem round2_nonneg (q : ℚ) (h : 0 ≤ q) : 0 ≤ round2 q := by
  unfold round2
  have h2 : (0 : ℤ) ≤ roundHalfEven (q * 100) :=
    int_le_roundHalfEven _ 0 (by push_cast; linarith)
  have h3 : ((0 : ℤ) : ℚ) ≤ (roundHalfEven (q * 100) : ℚ) := by
    exact_mod_cast h2
  push_cast at h3
  exact div_nonneg h3 (by norm_num)

/-- Helper: the first argument bounds `pyMax` from below. -/
theorem le_pyMax_left (a b : ℚ) : a ≤ pyMax a b := by
  unfold pyMax
  split_ifs with h
  · exact le_refl a
  · linarith [not_le.mp h]

/-- Helper: `pyMax` of two bounded values is bounded. -/
theorem pyMax_le (a b c : ℚ) (h1 : a ≤ c) (h2 : b ≤ c) : pyMax a b ≤ c := by
  unfold pyMax
  split_ifs <;> assumption

/-- Helper: `pyMin` is bounded by its first argument. -/
theorem pyMin_le_left (a b : ℚ) : pyMin a b ≤ a := by
  unfold pyMin
  split_ifs with h
  · exact le_refl a
  · linarith [not_le.mp h]

/-- Helper: the first argument bounds `pyMaxI` from below. -/
theorem le_pyMaxI_left (a b : ℤ) : a ≤ pyMaxI a b := by
  unfold pyMaxI
  split_ifs with h
  · exact le_refl a
  · omega

/-- Helper: `pyMaxI` of two bounded values is bounded. -/
theorem pyMaxI_le (a b c : ℤ) (h1 : a ≤ c) (h2 : b ≤ c) : pyMaxI a b ≤ c := by
  unfold pyMaxI
  split_ifs <;> assumption

/-- Helper: `pyMinI` is bounded by its first argument. -/
theorem pyMinI_le_left (a b : ℤ) : pyMinI a b ≤ a := by
  unfold pyMinI
  split_ifs with h
  · exact le_refl a
  · omega

/-- C3 (counterexample): at current mood (0, 0, 5), plot mood
(0.555, 0, 6) and a zero user impact, the engine stores valence 0.39 (the
claimed clamp value 0.3885 rounded to 2 decimals) and intensity 5 (the
exact value 5.7 truncated by `int()`), while the claim's formula demands
valence 0.3885 and intensity round(5.7) = 6. -/
theorem C3_counterexample :
    synthesize_emotion_impacts ⟨0, 0, 5⟩ ⟨555/1000, 0, 6⟩ ⟨0, 0, 0⟩ ≠
      claimC3Compose ⟨0, 0, 5⟩ ⟨555/1000, 0, 6⟩ ⟨0, 0, 0⟩ := by
  norm_num [synthesize_emotion_impacts, claimC3Compose, pyMax, pyMin, pyMaxI,
    pyMinI, round2, roundHalfEven, pyInt, round_eq, RoleMood.mk.injEq]

/-- C3 (amended): the composition equals the claimed clamped weighted
formula with the stored valence/arousal rounded to 2 decimals and the
intensity truncated toward zero (not rounded to nearest); every composed
mood is clamped into valence [-1,1], arousal [0,1], intensity [1,10],
never wrapped. -/
theorem C3_amended (cur : RoleMood) (plot : PlotMoodData) (user : UserImpact) :
    synthesize_emotion_impacts cur plot user = amendedC3Compose cur plot user ∧
    -1 ≤ (synthesize_emotion_impacts cur plot user).my_valence ∧
    (synthesize_emotion_impacts cur plot user).my_valence ≤ 1 ∧
    0 ≤ (synthesize_emotion_impacts cur plot user).my_arousal ∧
    (synthesize_emotion_impacts cur plot user).my_arousal ≤ 1 ∧
    1 ≤ (synthesize_emotion_impacts cur plot user).my_intensity ∧
    (synthesize_emotion_impacts cur plot user).my_intensity ≤ 10 := by
  obtain ⟨cv, ca, ci⟩ := cur
  obtain ⟨pv, pa, pi⟩ := plot
  obtain ⟨uv, ua, ui⟩ := user
  refine ⟨?_, ?_, ?_, ?_, ?_, ?_, ?_⟩
  · show RoleMood.mk _ _ _ = RoleMood.mk _ _ _
    simp only [RoleMood.mk.injEq]
    refine ⟨?_, ?_, ?_⟩
    · congr 2
      ring_nf
    · congr 2
      ring_nf
    · congr 3
      ring_nf
  · exact neg_one_le_round2 _ (le_pyMax_left _ _)
  · exact round2_le_one _ (pyMax_le _ _ _ (by norm_num) (pyMin_le_left _ _))
  · exact round2_nonneg _ (le_pyMax_left _ _)
  · exact round2_le_one _ (pyMax_le _ _ _ (by norm_num) (pyMin_le_left _ _))
  · exact le_pyMaxI_left _ _
  · exact pyMaxI_le _ _ _ (by norm_num) (pyMinI_le_left _ _)

/-- C4 (counterexample): at current intensity 7 the full pipeline (the
analyzer's classification and amplification followed by the synthesis)
multiplies only the user-side valence/arousal impact by 1.2; composing the
concrete analyzer reply with plot mood (0.1, 0.5, 7) yields valence 0.21,
whereas the claim's both-deltas-scaled formula yields 0.228. -/
theorem C4_counterexample :
    (emotion_update_block ⟨0, 1/2, 7⟩ "我感到被认可|正面影响|5|还好" ⟨1/10, 1/2, 7⟩).1 ≠
      claimC4Compose ⟨0, 1/2, 7⟩ ⟨1/10, 1/2, 7⟩
        (classify_raw_impact "我感到被认可".data "正面影响".data 5).1
        (classify_raw_impact "我感到被认可".data "正面影响".data 5).2 5 := by
  have hsplit : (splitOnCh '|' (pyStrip "我感到被认可|正面影响|5|还好".data)).map pyStrip =
      [['我', '感', '到', '被', '认', '可'], ['正', '面', '影', '响'], ['5'],
       ['还', '好']] := by decide
  have hblock : (emotion_update_block ⟨0, 1/2, 7⟩
        "我感到被认可|正面影响|5|还好" ⟨1/10, 1/2, 7⟩).1 =
      synthesize_emotion_impacts ⟨0, 1/2, 7⟩ ⟨1/10, 1/2, 7⟩
        (compute_user_impact ⟨0, 1/2, 7⟩ ['我', '感', '到', '被', '认', '可']
          ['正', '面', '影', '响'] ['5']) := by
    unfold emotion_update_block analyze_user_message_emotion_impact
    rw [hsplit]
  have hk : parseIntOpt ['5'] = some (5 : ℤ) := by decide
  have himp : compute_user_impact ⟨0, 1/2, 7⟩ ['我', '感', '到', '被', '认', '可']
      ['正', '面', '影', '响'] ['5'] = ⟨12/25, 0, 5⟩ := by
    simp +decide only [compute_user_impact, hk, classify_raw_impact, amplify_user_impact]
    norm_num [pyMin, round3, roundHalfEven, UserImpact.mk.injEq]
  have hsynth : synthesize_emotion_impacts ⟨0, 1/2, 7⟩ ⟨1/10, 1/2, 7⟩
      (⟨12/25, 0, 5⟩ : UserImpact) = ⟨21/100, 1/2, 8⟩ := by
    norm_num [synthesize_emotion_impacts, pyMax, pyMin, pyMaxI, pyMinI, round2,
      roundHalfEven, pyInt, RoleMood.mk.injEq]
  have hclaim : claimC4Compose ⟨0, 1/2, 7⟩ ⟨1/10, 1/2, 7⟩
      (classify_raw_impact "我感到被认可".data "正面影响".data 5).1
      (classify_raw_impact "我感到被认可".data "正面影响".data 5).2 5 =
      ⟨57/250, 1/2, 9⟩ := by
    have hc : classify_raw_impact "我感到被认可".data "正面影响".data 5 =
        (pyMin (1/2) ((5 : ℤ) * (8/100) : ℚ), 0) := by
      simp +decide only [classify_raw_impact, if_true, if_false]
    rw [hc]
    norm_num [claimC4Compose, amplify_factor, pyMax, pyMin, pyMaxI, pyMinI,
      round_eq, RoleMood.mk.injEq]
  rw [hblock, himp, hsynth, hclaim]
  norm_num [RoleMood.mk.injEq]

/-- C4 (amended): the amplification factor (1.2 at intensity ≥ 7, 0.7 at
intensity ≤ 3, 1.0 otherwise, in particular at 5) multiplies only the
user-derived raw valence/arousal impact inside the analyzer, before its
3-decimal rounding; the plot-derived delta and the user intensity impact
are composed unscaled with the fixed 0.7/0.3 weights. -/
theorem C4_amended (cur : RoleMood) (plot : PlotMoodData) (rawV rawA : ℚ)
    (k : ℤ) :
    synthesize_emotion_impacts cur plot
        ⟨round3 (amplify_user_impact cur.my_intensity rawV rawA).1,
         round3 (amplify_user_impact cur.my_intensity rawV rawA).2, k⟩ =
      amendedC4Compose cur plot rawV rawA k ∧
    amplify_user_impact cur.my_intensity rawV rawA =
      (amplify_factor cur.my_intensity * rawV,
       amplify_factor cur.my_intensity * rawA) ∧
    amplify_factor 7 = 12/10 ∧ amplify_factor 3 = 7/10 ∧ amplify_factor 5 = 1 := by
  have hamp : amplify_user_impact cur.my_intensity rawV rawA =
      (amplify_factor cur.my_intensity * rawV,
       amplify_factor cur.my_intensity * rawA) := by
    unfold amplify_user_impact amplify_factor
    split_ifs <;> exact Prod.ext (by ring) (by ring)
  refine ⟨?_, hamp, by norm_num [amplify_factor], by norm_num [amplify_factor],
    by norm_num [amplify_factor]⟩
  obtain ⟨cv, ca, ci⟩ := cur
  obtain ⟨pv, pa, pi⟩ := plot
  rw [hamp]
  show RoleMood.mk _ _ _ = RoleMood.mk _ _ _
  simp only [RoleMood.mk.injEq]
  refine ⟨?_, ?_, ?_⟩
  · congr 2
    ring_nf
  · congr 2
    ring_nf
  · congr 3
    ring_nf

/-- Helper: the analyzer raises when the model reply splits into fewer
than 4 `|`-separated parts. -/
theorem analyze_error_of_short (cur : RoleMood) (resp : String)
    (h : ((splitOnCh '|' (pyStrip resp.data)).map pyStrip).length < 4) :
    analyze_user_message_emotion_impact cur resp = Except.error () := by
  unfold analyze_user_message_emotion_impact
  rcases hl : (splitOnCh '|' (pyStrip resp.data)).map pyStrip with
    _ | ⟨a, _ | ⟨b, _ | ⟨c, _ | ⟨d, t⟩⟩⟩⟩
  · rfl
  · rfl
  · rfl
  · rfl
  · exfalso
    rw [hl] at h
    simp only [List.length_cons] at h
    omega

/-- C5 (confirmed): when the user-impact sub-analysis output cannot be
parsed (fewer than 4 parts), the raised error is caught by the
`process_query` handler: the character's mood is left exactly equal to the
prior mood and no mood value — in particular no fabricated zero-impact
composition — is written to the store. -/
theorem C5_theorem (cur : RoleMood) (resp : String) (plot : PlotMoodData)
    (h : ((splitOnCh '|' (pyStrip resp.data)).map pyStrip).length < 4) :
    emotion_update_block cur resp plot = (cur, none) := by
  unfold emotion_update_block
  rw [analyze_error_of_short cur resp h]

/-- Witness for C5 at a concrete unparseable analyzer reply. -/
theorem C5_theorem_witness :
    emotion_update_block ⟨0, 0, 5⟩ "我没什么感觉" ⟨0, 0, 5⟩ = (⟨0, 0, 5⟩, none) :=
  C5_theorem ⟨0, 0, 5⟩ "我没什么感觉" ⟨0, 0, 5⟩ (by decide)

/-- C6 (counterexample): the turn pipeline's mood update writes only the
hot Redis tier; with a durable row holding the old mood, the durable row
still holds the old mood after the pipeline write, refuting the claimed
durable-first write-through. -/
theorem C6_counterexample :
    (turn_pipeline_mood_write ⟨some ⟨0, 0, 3⟩, some ⟨0, 0, 3⟩⟩ ⟨1/2, 1/2, 8⟩).durable ≠
      some ⟨1/2, 1/2, 8⟩ := by
  intro h
  have h2 : (0 : ℚ) = 1/2 := congrArg (fun o => (o.getD ⟨0, 0, 0⟩).my_valence) h
  norm_num at h2

/-- C6 (amended): the turn pipeline's mood update (the agent method)
writes the hot tier only and leaves the durable row untouched; the
durable write exists only in the separate `RoleDetailManager` method,
which conversely touches no hot tier. -/
theorem C6_amended (s : MoodStores) (m : RoleMood) :
    (turn_pipeline_mood_write s m).durable = s.durable ∧
    (turn_pipeline_mood_write s m).hot = some m ∧
    manager_update_role_mood s m = { s with durable := some m } ∧
    (manager_update_role_mood s m).hot = s.hot :=
  ⟨rfl, rfl, rfl, rfl⟩

/-- Helper: stage advancement never touches `specific_plot` rows or blob
files. -/
theorem advance_life_stage_status_plots (db : LifeDb)
    (gen : ℕ → Option (List StageRow)) :
    (advance_life_stage_status db gen).1.plots = db.plots ∧
    (advance_life_stage_status db gen).1.blobs = db.blobs := by
  unfold advance_life_stage_status
  split <;> exact ⟨rfl, rfl⟩

/-- Helper: segment advancement never touches `specific_plot` rows or blob
files. -/
theorem advance_plot_segment_status_plots (db : LifeDb)
    (gen : ℕ → Option (List StageRow)) :
    (advance_plot_segment_status db gen).1.plots = db.plots ∧
    (advance_plot_segment_status db gen).1.blobs = db.blobs := by
  unfold advance_plot_segment_status
  split
  · exact ⟨rfl, rfl⟩
  · split
    · constructor
      · exact (advance_life_stage_status_plots _ _).1
      · exact (advance_life_stage_status_plots _ _).2
    · exact ⟨rfl, rfl⟩

/-- Helper: with no stored plots for any segment and a failing daily-plot
generator, the regeneration fold leaves the state unchanged. -/
theorem gen_fold_fail (genDaily : ℕ → List PlotRow × Bool)
    (hfail : ∀ s, genDaily s = ([], false)) :
    ∀ (l : List SegRow) (d : LifeDb), d.plots = [] →
      l.foldl (fun d s => (generate_daily_plots_for_segment d genDaily s.segId).1) d = d := by
  intro l
  induction l with
  | nil => intro d _; rfl
  | cons s t ih =>
    intro d hd
    have hstep : (generate_daily_plots_for_segment d genDaily s.segId).1 = d := by
      obtain ⟨p, b, st, sg⟩ := d
      simp only at hd
      subst hd
      unfold generate_daily_plots_for_segment
      rw [hfail s.segId]
      simp
    rw [List.foldl_cons, hstep]
    exact ih d hd

/-- C7 (counterexample): a concrete time-advance trigger in which the
daily-plot generation terminally fails still commits the purge and the
segment advancement, so the durable life-story state is not left as it
was before the trigger. -/
theorem C7_counterexample :
    generate_daily_plots_for_active_segments
        ⟨[⟨1, 10, 1⟩], [7],
         [⟨100, 1, 1, LifeStatus.active⟩, ⟨101, 1, 2, LifeStatus.locked⟩],
         [⟨10, 100, 1, LifeStatus.active⟩, ⟨11, 100, 2, LifeStatus.locked⟩]⟩
        2 (fun _ => none) (fun _ => ([], false)) ≠
      ⟨[⟨1, 10, 1⟩], [7],
       [⟨100, 1, 1, LifeStatus.active⟩, ⟨101, 1, 2, LifeStatus.locked⟩],
       [⟨10, 100, 1, LifeStatus.active⟩, ⟨11, 100, 2, LifeStatus.locked⟩]⟩ := by
  decide

/-- C7 (amended): the retry bounds hold (3 attempts, backoff 2s doubling
to 4s), but a terminal generation failure does not restore the pre-trigger
state: the purge of daily plots/blobs and the segment/stage advancement
are already committed by their own steps, so the trigger ends in exactly
that intermediate state, with no daily plots regenerated. -/
theorem C7_amended (db : LifeDb) (now : ℕ) (gen : ℕ → Option (List StageRow))
    (genDaily : ℕ → List PlotRow × Bool)
    (hmax : ∃ d, get_max_plot_date db = some d ∧ d < now)
    (hfail : ∀ s, genDaily s = ([], false)) :
    generate_daily_plots_for_active_segments db now gen genDaily =
      (advance_plot_segment_status (clear_plot_files_and_data db) gen).1 ∧
    run_with_retries (fun _ => (none : Option (List StageRow))) = (none, 3, [2, 4]) := by
  refine ⟨?_, rfl⟩
  obtain ⟨d, hd, hlt⟩ := hmax
  unfold generate_daily_plots_for_active_segments
  rw [hd]
  rw [if_pos (decide_eq_true hlt)]
  have hplots : (advance_plot_segment_status (clear_plot_files_and_data db) gen).1.plots = [] :=
    (advance_plot_segment_status_plots _ _).1
  split
  · exact gen_fold_fail genDaily hfail _ _ hplots
  · rfl

/-- Witness for C7 (amended) on the concrete trigger scenario. -/
theorem C7_amended_witness :
    generate_daily_plots_for_active_segments
        ⟨[⟨1, 10, 1⟩], [7],
         [⟨100, 1, 1, LifeStatus.active⟩, ⟨101, 1, 2, LifeStatus.locked⟩],
         [⟨10, 100, 1, LifeStatus.active⟩, ⟨11, 100, 2, LifeStatus.locked⟩]⟩
        2 (fun _ => none) (fun _ => ([], false)) =
      (advance_plot_segment_status
        (clear_plot_files_and_data
          ⟨[⟨1, 10, 1⟩], [7],
           [⟨100, 1, 1, LifeStatus.active⟩, ⟨101, 1, 2, LifeStatus.locked⟩],
           [⟨10, 100, 1, LifeStatus.active⟩, ⟨11, 100, 2, LifeStatus.locked⟩]⟩)
        (fun _ => none)).1 :=
  (C7_amended _ 2 _ _ ⟨1, by decide, by decide⟩ (fun _ => rfl)).1

/-- C10 (confirmed): whenever stage advancement runs with some active
stage, the transaction's first database action is the global
`DELETE FROM plot_segments` — before any stage status update — and the
committed state holds no plot-segment row at all, so segments of every
other outline are wiped too. -/
theorem C10_theorem (db : LifeDb) (gen : ℕ → Option (List StageRow))
    (h : db.stages.filter (fun r => decide (r.status = LifeStatus.active)) ≠ []) :
    (∃ rest, (advance_life_stage_status db gen).2.1 =
        DbAction.deleteAllPlotSegments :: rest) ∧
    (advance_life_stage_status db gen).1.segments = [] ∧
    ∀ s ∈ db.segments, s ∉ (advance_life_stage_status db gen).1.segments := by
  have hne : (db.stages.filter
      (fun r => decide (r.status = LifeStatus.active))).isEmpty = false := by
    rw [List.isEmpty_eq_false]
    exact h
  unfold advance_life_stage_status
  rw [if_neg (by rw [hne]; exact Bool.false_ne_true)]
  refine ⟨⟨(stage_loop_run gen db).acts, rfl⟩, rfl, ?_⟩
  intro s _ hs
  exact absurd hs (List.not_mem_nil s)

/-- Witness for C10 on a database holding a second outline's segment. -/
theorem C10_theorem_witness :
    (∃ rest, (advance_life_stage_status
        ⟨[], [], [⟨100, 1, 1, LifeStatus.active⟩],
         [⟨10, 100, 1, LifeStatus.active⟩, ⟨20, 200, 1, LifeStatus.locked⟩]⟩
        (fun _ => some [])).2.1 = DbAction.deleteAllPlotSegments :: rest) ∧
    (advance_life_stage_status
        ⟨[], [], [⟨100, 1, 1, LifeStatus.active⟩],
         [⟨10, 100, 1, LifeStatus.active⟩, ⟨20, 200, 1, LifeStatus.locked⟩]⟩
        (fun _ => some [])).1.segments = [] ∧
    ∀ s ∈ ([⟨10, 100, 1, LifeStatus.active⟩,
             ⟨20, 200, 1, LifeStatus.locked⟩] : List SegRow),
      s ∉ (advance_life_stage_status
        ⟨[], [], [⟨100, 1, 1, LifeStatus.active⟩],
         [⟨10, 100, 1, LifeStatus.active⟩, ⟨20, 200, 1, LifeStatus.locked⟩]⟩
        (fun _ => some [])).1.segments :=
  C10_theorem _ _ (by decide)

/-- Helper: the order-maximum fold is bounded below by its seed. -/
theorem maxOrder_fold_init (rows : List DbMsg) :
    ∀ init : ℕ, init ≤ rows.foldl (fun acc x => max acc x.msgOrder) init := by
  induction rows with
  | nil => intro init; exact le_refl _
  | cons a t ih =>
    intro init
    rw [List.foldl_cons]
    exact le_trans (le_max_left init a.msgOrder) (ih (max init a.msgOrder))

/-- Helper: every row's order is bounded by `maxOrderOf`. -/
theorem le_maxOrderOf (rows : List DbMsg) (r : DbMsg) (hr : r ∈ rows) :
    r.msgOrder ≤ maxOrderOf rows := by
  unfold maxOrderOf
  obtain ⟨l1, l2, rfl⟩ := List.append_of_mem hr
  rw [List.foldl_append, List.foldl_cons]
  exact le_trans (le_trans (le_max_right _ _) (le_refl _))
    (maxOrder_fold_init l2 _)

/-- Helper: the rows inserted by a flush carry strictly increasing orders
when their enumerated indices do. -/
theorem insert_orders_pairwise (existing : List DbMsg) (m : ℕ) :
    ∀ l : List (ℕ × ℕ), l.Pairwise (fun a b => a.1 < b.1) →
      (l.filterMap (fun p =>
          if existing.any (fun r => decide (r.messageId = p.2)) then none
          else some (⟨p.2, m + p.1 + 1⟩ : DbMsg))).Pairwise
        (fun a b => a.msgOrder < b.msgOrder) := by
  intro l
  induction l with
  | nil => intro _; exact List.Pairwise.nil
  | cons p t ih =>
    intro hp
    rcases List.pairwise_cons.mp hp with ⟨hpt, ht⟩
    by_cases hc : existing.any (fun r => decide (r.messageId = p.2)) = true
    · simp only [List.filterMap_cons, if_pos hc]
      exact ih ht
    · simp only [List.filterMap_cons, if_neg hc]
      refine List.pairwise_cons.mpr ⟨?_, ih ht⟩
      intro b hb
      rcases List.mem_filterMap.mp hb with ⟨q, hq, hfq⟩
      by_cases hcq : existing.any (fun r => decide (r.messageId = q.2)) = true
      · rw [if_pos hcq] at hfq
        cases hfq
      · rw [if_neg hcq] at hfq
        cases hfq
        show m + p.1 + 1 < m + q.1 + 1
        have := hpt q hq
        omega

/-- Helper: every inserted row's order exceeds the pre-flush maximum. -/
theorem insert_orders_ge (existing : List DbMsg) (m : ℕ) (l : List (ℕ × ℕ))
    (b : DbMsg)
    (hb : b ∈ l.filterMap (fun p =>
        if existing.any (fun r => decide (r.messageId = p.2)) then none
        else some (⟨p.2, m + p.1 + 1⟩ : DbMsg))) :
    m + 1 ≤ b.msgOrder := by
  rcases List.mem_filterMap.mp hb with ⟨q, _, hfq⟩
  by_cases hcq : existing.any (fun r => decide (r.messageId = q.2)) = true
  · rw [if_pos hcq] at hfq
    cases hfq
  · rw [if_neg hcq] at hfq
    cases hfq
    show m + 1 ≤ m + q.1 + 1
    omega

/-- Helper: enumerated indices are strictly increasing. -/
theorem enumFrom_pairwise_fst : ∀ (l : List ℕ) (n : ℕ),
    (l.enumFrom n).Pairwise (fun a b : ℕ × ℕ => a.1 < b.1) := by
  intro l
  induction l with
  | nil => intro n; exact List.Pairwise.nil
  | cons a t ih =>
    intro n
    rw [List.enumFrom_cons]
    refine List.pairwise_cons.mpr ⟨?_, ih (n + 1)⟩
    intro x hx
    have := (List.mem_enumFrom hx).1
    show n < x.1
    omega

/-- Helper: a fresh flush into an empty durable tier assigns the
contiguous orders k+1, k+2, ... down the hot list. -/
theorem fresh_orders : ∀ (l : List ℕ) (k : ℕ),
    ((l.enumFrom k).filterMap (fun p =>
        if ([] : List DbMsg).any (fun r => decide (r.messageId = p.2)) then none
        else some (⟨p.2, maxOrderOf [] + p.1 + 1⟩ : DbMsg))).map
      (fun r => r.msgOrder) = List.range' (k + 1) l.length := by
  intro l
  induction l with
  | nil => intro k; rfl
  | cons a t ih =>
    intro k
    have hsome : (fun p : ℕ × ℕ =>
        if ([] : List DbMsg).any (fun r => decide (r.messageId = p.2)) then none
        else some (⟨p.2, maxOrderOf [] + p.1 + 1⟩ : DbMsg)) (k, a) =
        some ⟨a, maxOrderOf [] + k + 1⟩ := rfl
    rw [List.enumFrom_cons]
    simp only [List.filterMap_cons, hsome, List.map_cons, ih (k + 1)]
    show (maxOrderOf [] + k + 1) :: List.range' (k + 1 + 1) t.length =
      List.range' (k + 1) (t.length + 1)
    rw [List.range'_succ]
    congr 1
    show maxOrderOf [] + k + 1 = k + 1
    simp [maxOrderOf]

/-- C9 (counterexample): after the second periodic flush of a session
(first flush persisted messages 1-6; the hot list still carries them,
reordered by the persisted-marker rewrite, ahead of messages 7-12), the
durable tier holds 12 rows but no row with order 7: the already-persisted
entries still consume indices, so orders are not contiguous from 1. -/
theorem C9_counterexample :
    (persist_redis_messages_to_mysql
        [⟨1, 1⟩, ⟨2, 2⟩, ⟨3, 3⟩, ⟨4, 4⟩, ⟨5, 5⟩, ⟨6, 6⟩]
        [6, 5, 4, 3, 2, 1, 7, 8, 9, 10, 11, 12]).length = 12 ∧
    ∀ r ∈ persist_redis_messages_to_mysql
        [⟨1, 1⟩, ⟨2, 2⟩, ⟨3, 3⟩, ⟨4, 4⟩, ⟨5, 5⟩, ⟨6, 6⟩]
        [6, 5, 4, 3, 2, 1, 7, 8, 9, 10, 11, 12], r.msgOrder ≠ 7 := by
  exact ⟨by decide, by decide⟩

/-- C9 (amended): durable `(session_id, order)` pairs stay unique — the
flushed orders are pairwise distinct — and each non-duplicate hot entry at
index i of the full hot-list traversal (indices are consumed by
already-persisted entries too) is inserted with order max+1+i; orders are
contiguous from 1 only for a flush into an empty durable tier. -/
theorem C9_amended (existing : List DbMsg) (hot : List ℕ)
    (hex : (existing.map (fun r => r.msgOrder)).Nodup) :
    ((persist_redis_messages_to_mysql existing hot).map
      (fun r => r.msgOrder)).Nodup ∧
    (∀ i mid, hot[i]? = some mid →
      (∀ r ∈ existing, r.messageId ≠ mid) →
      (⟨mid, maxOrderOf existing + i + 1⟩ : DbMsg) ∈
        persist_redis_messages_to_mysql existing hot) ∧
    (existing = [] →
      (persist_redis_messages_to_mysql [] hot).map (fun r => r.msgOrder) =
        List.range' 1 hot.length) := by
  refine ⟨?_, ?_, ?_⟩
  · unfold persist_redis_messages_to_mysql
    rw [List.map_append]
    apply List.Nodup.append hex
    · have hpw := insert_orders_pairwise existing (maxOrderOf existing) hot.enum
        (enumFrom_pairwise_fst hot 0)
      have hmapped : (List.map (fun r : DbMsg => r.msgOrder)
          (hot.enum.filterMap (fun p =>
            if existing.any (fun r => decide (r.messageId = p.2)) then none
            else some (⟨p.2, maxOrderOf existing + p.1 + 1⟩ : DbMsg)))).Pairwise
          (fun a b : ℕ => a < b) :=
        List.pairwise_map.mpr hpw
      exact hmapped.imp Nat.ne_of_lt
    · intro a ha hb
      rcases List.mem_map.mp ha with ⟨r, hr, rfl⟩
      rcases List.mem_map.mp hb with ⟨b, hbmem, hbeq⟩
      have h1 : r.msgOrder ≤ maxOrderOf existing := le_maxOrderOf existing r hr
      have h2 : maxOrderOf existing + 1 ≤ b.msgOrder :=
        insert_orders_ge existing (maxOrderOf existing) hot.enum b hbmem
      omega
  · intro i mid hget hnodup
    unfold persist_redis_messages_to_mysql
    apply List.mem_append.mpr
    right
    apply List.mem_filterMap.mpr
    refine ⟨(i, mid), ?_, ?_⟩
    · have henum : hot.enum[i]? = some (i, mid) := by
        rw [List.getElem?_enum, hget]
        rfl
      exact List.getElem?_mem henum
    · rw [if_neg]
      intro hany
      rcases List.any_eq_true.mp hany with ⟨r, hr, hrmid⟩
      exact hnodup r hr (of_decide_eq_true hrmid)
  · intro hex0
    subst hex0
    unfold persist_redis_messages_to_mysql
    rw [List.nil_append]
    have := fresh_orders hot 0
    show (List.map (fun r : DbMsg => r.msgOrder) ((hot.enumFrom 0).filterMap (fun p =>
        if ([] : List DbMsg).any (fun r => decide (r.messageId = p.2)) then none
        else some (⟨p.2, maxOrderOf [] + p.1 + 1⟩ : DbMsg)))) = List.range' 1 hot.length
    rw [this]

/-- Witness for C9 (amended) on a concrete one-row durable tier. -/
theorem C9_amended_witness :
    ((persist_redis_messages_to_mysql [⟨1, 1⟩] [1, 2]).map
      (fun r => r.msgOrder)).Nodup :=
  (C9_amended [⟨1, 1⟩] [1, 2] (by decide)).1

/-- Helper: with strictly later starts in the tail, Python min-by-start
returns the head. -/
theorem minByStart_eq_head : ∀ (rest : List PlotSeg) (s0 : PlotSeg),
    (∀ b ∈ rest, s0.startMinutes < b.startMinutes) → minByStart s0 rest = s0 := by
  intro rest
  induction rest with
  | nil => intro s0 _; rfl
  | cons b t ih =>
    intro s0 h
    unfold minByStart at ih ⊢
    rw [List.foldl_cons, if_neg (by have := h b (List.mem_cons_self b t); omega)]
    exact ih s0 (fun x hx => h x (List.mem_cons_of_mem b hx))

/-- Helper: Python max-by-start returns an element of the list. -/
theorem maxByStart_mem : ∀ (rest : List PlotSeg) (s0 : PlotSeg),
    maxByStart s0 rest ∈ s0 :: rest := by
  intro rest
  induction rest with
  | nil => intro s0; exact List.mem_singleton.mpr rfl
  | cons b t ih =>
    intro s0
    unfold maxByStart at ih ⊢
    rw [List.foldl_cons]
    by_cases hc : s0.startMinutes < b.startMinutes
    · rw [if_pos hc]
      exact List.mem_cons_of_mem s0 (ih b)
    · rw [if_neg hc]
      rcases List.mem_cons.mp (ih s0) with h | h
      · rw [h]
        exact List.mem_cons_self s0 (b :: t)
      · exact List.mem_cons_of_mem s0 (List.mem_cons_of_mem b h)

/-- Helper: a closed segment determines its concrete end. -/
theorem segClosed_spec (s : PlotSeg) (h : segClosedB s = true) :
    ∃ e, s.endMinutes = some e ∧ s.startMinutes < e ∧ endVal s = e := by
  unfold segClosedB at h
  cases he : s.endMinutes with
  | none => rw [he] at h; cases h
  | some e =>
    rw [he] at h
    exact ⟨e, rfl, of_decide_eq_true h, by simp [endVal, he]⟩

/-- Helper: the latest-end seed of a closed segment is its end. -/
theorem latestEndInit_closed (s : PlotSeg) (h : segClosedB s = true) :
    latestEndInit s = endVal s := by
  obtain ⟨e, he, hlt, hev⟩ := segClosed_spec s h
  unfold latestEndInit
  rw [he]
  show (if e ≠ 0 then e else s.startMinutes) = endVal s
  rw [hev, if_pos (by omega)]

/-- Helper: each fold step can only raise the accumulator. -/
theorem latestEndStep_ge (acc : ℕ) (s : PlotSeg) : acc ≤ latestEndStep acc s := by
  unfold latestEndStep
  cases s.endMinutes with
  | none => exact le_refl acc
  | some e =>
    show acc ≤ if e ≠ 0 ∧ acc < e then e else acc
    split_ifs with h
    · exact le_of_lt h.2
    · exact le_refl acc

/-- Helper: after visiting a closed segment the accumulator dominates its
end. -/
theorem latestEndStep_ge_endVal (acc : ℕ) (s : PlotSeg)
    (hc : segClosedB s = true) : endVal s ≤ latestEndStep acc s := by
  obtain ⟨e, he, hlt, hev⟩ := segClosed_spec s hc
  unfold latestEndStep
  rw [he]
  show endVal s ≤ if e ≠ 0 ∧ acc < e then e else acc
  rw [hev]
  split_ifs with h
  · exact le_refl e
  · have : e ≠ 0 := by omega
    omega

/-- Helper: the latest-end fold is bounded below by its seed. -/
theorem init_le_latestEndFold : ∀ (l : List PlotSeg) (init : ℕ),
    init ≤ l.foldl latestEndStep init := by
  intro l
  induction l with
  | nil => intro init; exact le_refl init
  | cons s t ih =>
    intro init
    rw [List.foldl_cons]
    exact le_trans (latestEndStep_ge init s) (ih _)

/-- Helper: the latest-end fold dominates the end of every closed member. -/
theorem endVal_le_latestEndFold (l : List PlotSeg) (init : ℕ) (s : PlotSeg)
    (hs : s ∈ l) (hc : segClosedB s = true) :
    endVal s ≤ latestEndFold l init := by
  obtain ⟨l1, l2, rfl⟩ := List.append_of_mem hs
  unfold latestEndFold
  rw [List.foldl_append, List.foldl_cons]
  exact le_trans (latestEndStep_ge_endVal _ s hc) (init_le_latestEndFold l2 _)

/-- Helper: the latest-end fold stays below a bound dominating the seed
and every end. -/
theorem latestEndFold_le : ∀ (l : List PlotSeg) (init now : ℕ),
    init ≤ now → (∀ s ∈ l, endVal s ≤ now) → latestEndFold l init ≤ now := by
  intro l
  induction l with
  | nil => intro init now hi _; exact hi
  | cons s t ih =>
    intro init now hi h
    unfold latestEndFold at ih ⊢
    rw [List.foldl_cons]
    refine ih _ now ?_ (fun x hx => h x (List.mem_cons_of_mem s hx))
    unfold latestEndStep
    cases he : s.endMinutes with
    | none => exact hi
    | some e =>
      show (if e ≠ 0 ∧ init < e then e else init) ≤ now
      split_ifs with hcond
      · have := h s (List.mem_cons_self s t)
        rw [endVal, he] at this
        exact this
      · exact hi

/-- Helper: the target loop returns the first closed segment containing
`now` when every earlier segment is closed and already over. -/
theorem findTarget_prefix (now : ℕ) : ∀ (pre : List PlotSeg) (t : PlotSeg)
    (post : List PlotSeg),
    (∀ s ∈ pre, segClosedB s = true ∧ endVal s ≤ now) →
    segClosedB t = true → t.startMinutes ≤ now → now < endVal t →
    findTarget now (pre ++ t :: post) none = some t := by
  intro pre
  induction pre with
  | nil =>
    intro t post _ hct h1 h2
    obtain ⟨e, he, _, hev⟩ := segClosed_spec t hct
    show findTarget now (t :: post) none = some t
    unfold findTarget
    rw [he]
    show (if t.startMinutes ≤ now ∧ now < e then some t
      else findTarget now post none) = some t
    rw [if_pos ⟨h1, hev ▸ h2⟩]
  | cons s pre ih =>
    intro t post hpre hct h1 h2
    obtain ⟨e, he, _, hev⟩ := segClosed_spec s (hpre s (List.mem_cons_self s pre)).1
    have hse : endVal s ≤ now := (hpre s (List.mem_cons_self s pre)).2
    rw [List.cons_append]
    show findTarget now (s :: (pre ++ t :: post)) none = some t
    unfold findTarget
    rw [he]
    show (if s.startMinutes ≤ now ∧ now < e then some s
      else findTarget now (pre ++ t :: post) none) = some t
    rw [if_neg (by rw [hev] at hse; omega)]
    exact ih t post (fun x hx => hpre x (List.mem_cons_of_mem s hx)) hct h1 h2

/-- Helper: the prefix filter on a line-sorted segment list keeps exactly
the prefix through the target. -/
theorem filter_le_split (pre : List PlotSeg) (t : PlotSeg) (post : List PlotSeg)
    (hpre : ∀ s ∈ pre, s.lineNumber ≤ t.lineNumber)
    (hpost : ∀ s ∈ post, t.lineNumber < s.lineNumber) :
    (pre ++ t :: post).filter (fun s => decide (s.lineNumber ≤ t.lineNumber)) =
      pre ++ [t] := by
  rw [List.filter_append,
    List.filter_eq_self.mpr (fun a ha => decide_eq_true (hpre a ha)),
    List.filter_cons, List.filter_eq_nil_iff.mpr ?hpost]
  · simp
  case hpost =>
    intro a ha hdec
    exact absurd (of_decide_eq_true hdec) (by have := hpost a ha; omega)

/-- Helper: a foldl-max seed never decreases. -/
theorem init_le_foldl_max : ∀ (l : List ℕ) (init : ℕ), init ≤ l.foldl max init := by
  intro l
  induction l with
  | nil => intro init; exact le_refl init
  | cons a t ih =>
    intro init
    rw [List.foldl_cons]
    exact le_trans (le_max_left init a) (ih (max init a))

/-- Helper: foldl-max dominates every member of the list. -/
theorem mem_le_foldl_max : ∀ (l : List ℕ) (init x : ℕ), x ∈ l → x ≤ l.foldl max init := by
  intro l
  induction l with
  | nil => intro init x hx; cases hx
  | cons a t ih =>
    intro init x hx
    rw [List.foldl_cons]
    rcases List.mem_cons.mp hx with h | h
    · subst h
      exact le_trans (le_max_right init x) (init_le_foldl_max t (max init x))
    · exact ih (max init a) x h

/-- Helper: strictly before the earliest start, the resolver returns the
previous day\x27s lines when they exist and otherwise just the earliest
line. -/
theorem window_early (s0 : PlotSeg) (rest : List PlotSeg) (now : ℕ)
    (prev : List String) (horder : List.Pairwise segBefore (s0 :: rest))
    (hnow : now < s0.startMinutes) :
    get_current_time_content_with_role (s0 :: rest) now prev =
      if prev.isEmpty then [s0.fullLine] else prev := by
  have hmin : minByStart s0 rest = s0 :=
    minByStart_eq_head rest s0 (fun b hb =>
      ((List.pairwise_cons.mp horder).1 b hb).2.1)
  have hpost : ∀ s ∈ rest, s0.lineNumber < s.lineNumber := fun s hs =>
    ((List.pairwise_cons.mp horder).1 s hs).1
  have hfilter := filter_le_split [] s0 rest
    (fun s hs => absurd hs (List.not_mem_nil s)) hpost
  rw [List.nil_append, List.nil_append] at hfilter
  simp only [get_current_time_content_with_role]
  rw [if_pos (by rw [hmin]; exact hnow)]
  by_cases hp : prev.isEmpty
  · rw [if_pos hp, if_pos hp, hmin, hfilter]
    rfl
  · rw [if_neg hp, if_neg hp]

/-- Helper: at or past the latest end, the resolver returns every line of
the day. -/
theorem window_all_past (s0 : PlotSeg) (rest : List PlotSeg) (now : ℕ)
    (prev : List String)
    (hclosed : ∀ s ∈ s0 :: rest, segClosedB s = true)
    (horder : List.Pairwise segBefore (s0 :: rest))
    (hall : ∀ s ∈ s0 :: rest, endVal s ≤ now) :
    get_current_time_content_with_role (s0 :: rest) now prev =
      (s0 :: rest).map (fun s => s.fullLine) := by
  have hmin : minByStart s0 rest = s0 :=
    minByStart_eq_head rest s0 (fun b hb =>
      ((List.pairwise_cons.mp horder).1 b hb).2.1)
  obtain ⟨e0, he0, hlt0, hev0⟩ :=
    segClosed_spec s0 (hclosed s0 (List.mem_cons_self s0 rest))
  have hs0 : endVal s0 ≤ now := hall s0 (List.mem_cons_self s0 rest)
  have hfold : latestEndFold (s0 :: rest) (latestEndInit (maxByStart s0 rest)) ≤ now := by
    refine latestEndFold_le _ _ now ?_ hall
    rw [latestEndInit_closed _ (hclosed _ (maxByStart_mem rest s0))]
    exact hall _ (maxByStart_mem rest s0)
  have hkeep : List.filter (fun s =>
      decide (s.lineNumber ≤ ((s0 :: rest).map (fun x => x.lineNumber)).foldl max 0))
      (s0 :: rest) = s0 :: rest :=
    List.filter_eq_self.mpr (fun a ha => decide_eq_true
      (mem_le_foldl_max _ 0 _ (List.mem_map_of_mem (fun x => x.lineNumber) ha)))
  simp only [get_current_time_content_with_role]
  rw [if_neg (by rw [hmin]; omega), if_pos hfold, hkeep]

/-- Helper: mid-segment, the resolver returns every line through the
running segment. -/
theorem window_mid_segment (s0 : PlotSeg) (rest pre : List PlotSeg)
    (t : PlotSeg) (post : List PlotSeg) (now : ℕ) (prev : List String)
    (heq : s0 :: rest = pre ++ t :: post)
    (hclosed : ∀ s ∈ s0 :: rest, segClosedB s = true)
    (horder : List.Pairwise segBefore (s0 :: rest))
    (hpre : ∀ s ∈ pre, endVal s ≤ now)
    (h1 : t.startMinutes ≤ now) (h2 : now < endVal t) :
    get_current_time_content_with_role (s0 :: rest) now prev =
      (pre ++ [t]).map (fun s => s.fullLine) := by
  have hmin : minByStart s0 rest = s0 :=
    minByStart_eq_head rest s0 (fun b hb =>
      ((List.pairwise_cons.mp horder).1 b hb).2.1)
  have ht_mem : t ∈ s0 :: rest := by
    rw [heq]
    exact List.mem_append_right pre (List.mem_cons_self t post)
  have hct : segClosedB t = true := hclosed t ht_mem
  have hstart : s0.startMinutes ≤ now := by
    cases pre with
    | nil =>
      injection heq with ha hb
      rw [ha]
      exact h1
    | cons p pre2 =>
      rw [List.cons_append] at heq
      injection heq with ha hb
      obtain ⟨e0, he0, hlt0, hev0⟩ :=
        segClosed_spec s0 (hclosed s0 (List.mem_cons_self s0 rest))
      have hp : endVal s0 ≤ now := by
        rw [ha]
        exact hpre p (List.mem_cons_self p pre2)
      omega
  have hfold : ¬ latestEndFold (s0 :: rest) (latestEndInit (maxByStart s0 rest)) ≤ now := by
    have hle := endVal_le_latestEndFold (s0 :: rest)
      (latestEndInit (maxByStart s0 rest)) t ht_mem hct
    omega
  have horder2 : List.Pairwise segBefore (pre ++ t :: post) := heq ▸ horder
  have hpre_lt : ∀ s ∈ pre, s.lineNumber ≤ t.lineNumber := by
    intro s hs
    exact le_of_lt ((List.pairwise_append.mp horder2).2.2 s hs t
      (List.mem_cons_self t post)).1
  have hpost_lt : ∀ s ∈ post, t.lineNumber < s.lineNumber := by
    intro s hs
    exact ((List.pairwise_cons.mp (List.pairwise_append.mp horder2).2.1).1 s hs).1
  have hfind : findTarget now (s0 :: rest) none = some t := by
    rw [heq]
    refine findTarget_prefix now pre t post ?_ hct h1 h2
    intro s hs
    refine ⟨hclosed s ?_, hpre s hs⟩
    rw [heq]
    exact List.mem_append_left _ hs
  simp only [get_current_time_content_with_role]
  rw [if_neg (by rw [hmin]; omega), if_neg hfold, hfind]
  show ((s0 :: rest).filter (fun s => decide (s.lineNumber ≤ t.lineNumber))).map
    (fun s => s.fullLine) = (pre ++ [t]).map (fun s => s.fullLine)
  rw [heq, filter_le_split pre t post hpre_lt hpost_lt]

/-- Helper: the plot window depends on the file system only through the
current day\x27s file and the immediately previous day\x27s file: the
fallback never reaches further back. -/
theorem plot_window_one_day (files files2 : ℤ → List PlotSeg) (today : ℤ)
    (now : ℕ) (h0 : files today = files2 today)
    (h1 : files (today - 1) = files2 (today - 1)) :
    get_role_plot_window files today now = get_role_plot_window files2 today now := by
  unfold get_role_plot_window load_previous_day_plot
  rw [h0, h1]

/-- C8: counterexample.  The claim promises, for every non-empty parsed
plot file, that at exactly the earliest start the resolver returns just
the first (earliest) line.  The parser never sorts its output, and the
resolver filters by line number up to the matched segment\x27s line
number, so on a file whose lines are not in chronological order the call
at the earliest start (minute 480, segment on line 2) returns both lines
instead of one. -/
theorem C8_counterexample :
    get_current_time_content_with_role
      [⟨1, 600, some 660, "10:00-11:00 A"⟩, ⟨2, 480, some 540, "8:00-9:00 B"⟩]
      480 [] = ["10:00-11:00 A", "8:00-9:00 B"] ∧
    (["10:00-11:00 A", "8:00-9:00 B"] : List String) ≠ ["8:00-9:00 B"] ∧
    (["10:00-11:00 A", "8:00-9:00 B"] : List String) ≠ ["10:00-11:00 A"] := by
  refine ⟨?_, by decide, by decide⟩
  rfl

/-- C8 (amended): on a chronologically well-formed file — every line
closed and the lines pairwise ordered by line number, start and
non-overlap — the four promised windows hold, and the previous-day
fallback reads exactly one day back: (1) strictly before the earliest
start with previous-day lines present, those lines are returned; (2)
strictly before the earliest start with no previous-day lines, just the
earliest line; (3) once every end has passed, all lines; (4) at exactly
the earliest start, just the first line; (5) mid-segment, every line
through the running segment; (6) the window of `get_role_plot_window`
depends only on the current and immediately previous day\x27s files. -/
theorem C8_amended (s0 : PlotSeg) (rest : List PlotSeg) (now : ℕ)
    (prevDayLines : List String)
    (hclosed : ∀ s ∈ s0 :: rest, segClosedB s = true)
    (horder : List.Pairwise segBefore (s0 :: rest)) :
    (now < s0.startMinutes → prevDayLines ≠ [] →
      get_current_time_content_with_role (s0 :: rest) now prevDayLines =
        prevDayLines) ∧
    (now < s0.startMinutes →
      get_current_time_content_with_role (s0 :: rest) now [] = [s0.fullLine]) ∧
    ((∀ s ∈ s0 :: rest, endVal s ≤ now) →
      get_current_time_content_with_role (s0 :: rest) now prevDayLines =
        (s0 :: rest).map (fun s => s.fullLine)) ∧
    (now = s0.startMinutes →
      get_current_time_content_with_role (s0 :: rest) now prevDayLines =
        [s0.fullLine]) ∧
    (∀ (pre : List PlotSeg) (t : PlotSeg) (post : List PlotSeg),
      s0 :: rest = pre ++ t :: post → (∀ s ∈ pre, endVal s ≤ now) →
      t.startMinutes ≤ now → now < endVal t →
      get_current_time_content_with_role (s0 :: rest) now prevDayLines =
        (pre ++ [t]).map (fun s => s.fullLine)) ∧
    (∀ (files files2 : ℤ → List PlotSeg) (today : ℤ) (m : ℕ),
      files today = files2 today → files (today - 1) = files2 (today - 1) →
      get_role_plot_window files today m = get_role_plot_window files2 today m) := by
  refine ⟨?_, ?_, ?_, ?_, ?_, ?_⟩
  · intro hn hne
    cases prevDayLines with
    | nil => exact absurd rfl hne
    | cons a l =>
      rw [window_early s0 rest now (a :: l) horder hn]
      rfl
  · intro hn
    rw [window_early s0 rest now [] horder hn]
    rfl
  · intro hall
    exact window_all_past s0 rest now prevDayLines hclosed horder hall
  · intro hne
    obtain ⟨e0, he0, hlt0, hev0⟩ :=
      segClosed_spec s0 (hclosed s0 (List.mem_cons_self s0 rest))
    rw [window_mid_segment s0 rest [] s0 rest now prevDayLines rfl hclosed horder
      (fun s hs => absurd hs (List.not_mem_nil s)) (by omega) (by omega)]
    rfl
  · intro pre t post heq hpre h1 h2
    exact window_mid_segment s0 rest pre t post now prevDayLines heq hclosed
      horder hpre h1 h2
  · intro files files2 today m h0 h1
    exact plot_window_one_day files files2 today m h0 h1

/-- Witness for C8 (amended): a sorted three-line day; at minute 550 the
second segment (540-600) is running, so the window is the first two
lines. -/
theorem C8_amended_witness :
    get_current_time_content_with_role
      [⟨1, 480, some 540, "l1"⟩, ⟨2, 540, some 600, "l2"⟩,
        ⟨3, 600, some 660, "l3"⟩] 550 [] = ["l1", "l2"] := by
  have h := C8_amended ⟨1, 480, some 540, "l1"⟩
    [⟨2, 540, some 600, "l2"⟩, ⟨3, 600, some 660, "l3"⟩] 550 []
    (by decide) (by decide)
  have h5 := h.2.2.2.2.1 [⟨1, 480, some 540, "l1"⟩] ⟨2, 540, some 600, "l2"⟩
    [⟨3, 600, some 660, "l3"⟩] rfl (by decide) (by decide) (by decide)
  rw [h5]
  rfl
